import Mathlib

/-!
Verification development for the rend-vk renderer core: a shallow embedding of
the device memory allocator (src/buffer.rs) and of the frame/task/texture
bookkeeping of the renderer (src/renderer.rs), with theorems checking the
natural-language specification against the embedded code.

Machine integers (u64) are modelled as Nat with explicit reduction modulo
2 ^ 64 at every operation where the source performs wrapping u64 arithmetic.
Paths on which the Rust code panics (unwrap/expect/out-of-bounds indexing)
are modelled explicitly as distinguished result values.
-/

set_option maxHeartbeats 1600000

/-- The modulus of u64 arithmetic. -/
def U64MOD : Nat := 2 ^ 64

/-- `DeviceBuffer::next_size` (src/buffer.rs:230-233):
`let mask = -(mul as i64) as u64; (base + (mul - 1)) & mask`.
Two-complement negation of `mul` is `(2^64 - mul) % 2^64`; `mul - 1` and the
addition wrap mod `2^64`. -/
def next_size (base mul : Nat) : Nat :=
  let mask : Nat := (U64MOD - mul % U64MOD) % U64MOD
  (((base % U64MOD) + (mul + U64MOD - 1) % U64MOD) % U64MOD) &&& mask

/-- `Range` (src/buffer.rs:108-112). The source field `end` is a Lean keyword,
so it is called `stop` here. -/
structure Range where
  start : Nat
  stop : Nat
deriving DecidableEq, Repr

/-- `Range::size` (src/buffer.rs:115-117): `self.end - self.start` in wrapping
u64 arithmetic (on an inverted range the u64 subtraction wraps around). -/
def Range.size (r : Range) : Nat :=
  (U64MOD + r.stop % U64MOD - r.start % U64MOD) % U64MOD

/-- `DeviceSlice` (src/buffer.rs:14-20); `addr: *mut c_void` is modelled as the
numeric address. -/
structure DeviceSlice where
  size : Nat
  offset : Nat
  alignment : Nat
  addr : Nat
deriving DecidableEq, Repr

/-- The fields of `DeviceBuffer` (src/buffer.rs:126-135) that the allocator
logic reads: total size, required alignment and base mapped address. -/
structure DeviceBuffer where
  size : Nat
  alignment : Nat
  addr : Nat
deriving DecidableEq, Repr

/-- `InnerDeviceAllocator` (src/buffer.rs:120-123). -/
structure InnerDeviceAllocator where
  buffer : DeviceBuffer
  ranges : List Range
deriving DecidableEq, Repr

/-- `InnerDeviceAllocator::wrap` (src/buffer.rs:263-269): a single free range
covering the whole buffer. -/
def InnerDeviceAllocator.wrap (buffer : DeviceBuffer) : InnerDeviceAllocator :=
  { buffer := buffer, ranges := [{ start := 0, stop := buffer.size }] }

/-- Result of `InnerDeviceAllocator::alloc`: `panic` models the out-of-bounds
`ranges[i]` indexing panic, `oom` models the `None` return, `ok` carries the
returned slice and the updated free list. -/
inductive AllocResult where
  | panic : AllocResult
  | oom : AllocResult
  | ok : DeviceSlice → List Range → AllocResult
deriving DecidableEq, Repr

/-- The `for i in 0..ranges.len()` loop of `InnerDeviceAllocator::alloc`
(src/buffer.rs:274-300), written as structural recursion on the remaining
suffix of `ranges`; the invariant of every call is that `suffix` is
`ranges.drop i`, so the head of `suffix` is `ranges[i]`.

Body (src/buffer.rs:275-299): skip ranges smaller than `size`; otherwise with
`new_start = old_start + size`, remove `ranges[i]` when the fit is exact, and
then unconditionally execute `ranges[i].start = new_start` — which, after an
exact-fit removal, indexes the *next* range (or panics when `i` is now out of
bounds). -/
def allocLoop (buf : DeviceBuffer) (size : Nat) (ranges : List Range) :
    List Range → Nat → AllocResult
  | [], _ => AllocResult.oom
  | r :: rest, i =>
    if r.size < size then
      allocLoop buf size ranges rest (i + 1)
    else
      let old_start := r.start
      let new_start := (old_start + size) % U64MOD
      let ranges1 := if new_start = r.stop then ranges.eraseIdx i else ranges
      match ranges1.get? i with
      | some r2 =>
        AllocResult.ok
          { size := size, offset := old_start, alignment := buf.alignment,
            addr := (buf.addr + old_start) % U64MOD }
          (ranges1.set i { start := new_start, stop := r2.stop })
      | none => AllocResult.panic

/-- `InnerDeviceAllocator::alloc` (src/buffer.rs:271-302). -/
def InnerDeviceAllocator.alloc (a : InnerDeviceAllocator) (size : Nat) : AllocResult :=
  allocLoop a.buffer (next_size size a.buffer.alignment) a.ranges a.ranges 0

/-- The `for i in 0..self.ranges.len()` loop of `InnerDeviceAllocator::free`
(src/buffer.rs:308-347) plus the trailing `insert` (src/buffer.rs:348-354),
written as structural recursion on the remaining suffix of `ranges` (the head
of `suffix` is `ranges[i]`).

Body: `continue` while `ranges[i].start <= slice_start`; if
`ranges[i].start == slice_end` extend that range backwards (also merging with
`ranges[i-1]` when contiguous); else if `ranges[i-1].end == slice_start`
extend the previous range forwards; otherwise `break`. After the loop the
freed range is inserted at `idx`, which is the loop index at the `break`, or
`len - 1` when the loop ran to completion (`idx` keeps its last assigned
value), or `0` for an empty list. -/
def freeLoop (ss se : Nat) (ranges : List Range) : List Range → Nat → List Range
  | [], _ => ranges.insertIdx (ranges.length - 1) { start := ss, stop := se }
  | r :: rest, i =>
    if r.start ≤ ss then
      freeLoop ss se ranges rest (i + 1)
    else if r.start = se then
      match i, ranges.get? (i - 1) with
      | 0, _ => ranges.set i { start := ss, stop := r.stop }
      | _ + 1, some p =>
        if p.stop = ss then
          (ranges.eraseIdx (i - 1)).set (i - 1) { start := p.start, stop := r.stop }
        else
          ranges.set i { start := ss, stop := r.stop }
      | _ + 1, none => ranges.set i { start := ss, stop := r.stop }
    else
      match i, ranges.get? (i - 1) with
      | 0, _ => ranges.insertIdx i { start := ss, stop := se }
      | _ + 1, some p =>
        if p.stop = ss then
          ranges.set (i - 1) { start := p.start, stop := se }
        else
          ranges.insertIdx i { start := ss, stop := se }
      | _ + 1, none => ranges.insertIdx i { start := ss, stop := se }

/-- `InnerDeviceAllocator::free` (src/buffer.rs:304-355). The slice start is
recovered from the pointer arithmetic
`slice.addr.offset(-(self.buffer.addr as isize)) as u64`, i.e. the wrapping
difference of the two addresses. -/
def InnerDeviceAllocator.free (a : InnerDeviceAllocator) (slice : DeviceSlice) :
    InnerDeviceAllocator :=
  let slice_start := (slice.addr + U64MOD - a.buffer.addr % U64MOD) % U64MOD
  let slice_end := (slice_start + slice.size) % U64MOD
  { a with ranges := freeLoop slice_start slice_end a.ranges a.ranges 0 }

/-- `InnerDeviceAllocator::available` (src/buffer.rs:364-366): the wrapping
u64 sum of the sizes of all free ranges. -/
def InnerDeviceAllocator.available (a : InnerDeviceAllocator) : Nat :=
  ((a.ranges.map Range.size).sum) % U64MOD

/-- One client operation on a region: `alloc size`, or `free j` releasing the
`j`-th slice of the list of live (returned and not yet freed) slices. -/
inductive AllocOp where
  | alloc : Nat → AllocOp
  | free : Nat → AllocOp
deriving DecidableEq, Repr

/-- Result of running a trace of operations: the final allocator and the
still-live slices, or `panicked` when `alloc` hit its indexing panic, or
`illegalFree` when a `free` did not name a live slice (such traces are outside
every claim). A failed `alloc` (`oom`, the `None` return) leaves the state
unchanged and the trace continues. -/
inductive TraceResult where
  | ok : InnerDeviceAllocator → List DeviceSlice → TraceResult
  | panicked : TraceResult
  | illegalFree : TraceResult
deriving DecidableEq, Repr

/-- Run a trace of alloc/free operations; every executed `free` passes a slice
previously returned by `alloc` and not yet freed, by construction. -/
def runTrace : InnerDeviceAllocator → List DeviceSlice → List AllocOp → TraceResult
  | a, live, [] => TraceResult.ok a live
  | a, live, AllocOp.alloc n :: ops =>
    match a.alloc n with
    | AllocResult.panic => TraceResult.panicked
    | AllocResult.oom => runTrace a live ops
    | AllocResult.ok s rs => runTrace { a with ranges := rs } (live ++ [s]) ops
  | a, live, AllocOp.free j :: ops =>
    match live.get? j with
    | none => TraceResult.illegalFree
    | some s => runTrace (a.free s) (live.eraseIdx j) ops

/-- The free list is in ascending, non-overlapping, non-adjacent order
(spec section 3, Range invariant): each range ends strictly before the next
one starts. -/
def rangesCoalesced : List Range → Prop
  | [] => True
  | [_] => True
  | r1 :: r2 :: rest => r1.stop < r2.start ∧ rangesCoalesced (r2 :: rest)

instance rangesCoalescedDecidable : (l : List Range) → Decidable (rangesCoalesced l)
  | [] => isTrue trivial
  | [_] => isTrue trivial
  | r1 :: r2 :: rest =>
    haveI := rangesCoalescedDecidable (r2 :: rest)
    inferInstanceAs (Decidable (r1.stop < r2.start ∧ rangesCoalesced (r2 :: rest)))

/-- A 1024-byte region with alignment 256 mapped at base address 0, as in the
spec scenario of section 8. -/
def buf1024 : DeviceBuffer := { size := 1024, alignment := 256, addr := 0 }

/-- The staging-relevant projection of `textures_by_id`
(src/renderer.rs:55): each texture id maps to the `staging` field of its
`Texture`. Modelled as an association list with first-match lookup. -/
def lookupStaging : List (Nat × Option DeviceSlice) → Nat → Option (Option DeviceSlice)
  | [], _ => none
  | (k, v) :: rest, id => if k = id then some v else lookupStaging rest id

/-- Update the `staging` field of texture `id` (src/renderer.rs:379 writes
`texture.staging = None`). -/
def setStaging : List (Nat × Option DeviceSlice) → Nat → Option DeviceSlice →
    List (Nat × Option DeviceSlice)
  | [], _, _ => []
  | (k, v) :: rest, id, s =>
    if k = id then (k, s) :: rest else (k, v) :: setStaging rest id s

/-- True when texture `id` exists and its staging slice is present. -/
def hasStaging (textures : List (Nat × Option DeviceSlice)) (id : Nat) : Bool :=
  (Option.bind (lookupStaging textures id) (fun x => x)).isSome

/-- `Renderer::is_texture_uploaded` (src/renderer.rs:281-287): `none` models
the panic on a missing id, otherwise `staging.is_none()`. -/
def is_texture_uploaded (textures : List (Nat × Option DeviceSlice)) (id : Nat) :
    Option Bool :=
  match lookupStaging textures id with
  | none => none
  | some staging => some staging.isNone

/-- Result of the `retain` pass over `ongoing_optimal_transitions`
(src/renderer.rs:362-381): the kept transitions, the updated texture table,
the updated general allocator, and the staging slices freed (in order);
`panicked` models the `unwrap`
on a missing texture and the `panic!` on a missing staging slice. -/
inductive RetainResult where
  | panicked : RetainResult
  | ok : List (Nat × Nat) → List (Nat × Option DeviceSlice) → InnerDeviceAllocator →
      List DeviceSlice → RetainResult
deriving DecidableEq, Repr

/-- The `retain` closure of src/renderer.rs:362-381 applied in order to each
pending transition `(texture_id, completion_value)`: keep the entry when
`e.1 > current_timeline_counter`; otherwise free the staging slice into the
general allocator (panicking when it is absent) and set `staging` to `None`,
dropping the entry. -/
def retainTransitions (counter : Nat) (textures : List (Nat × Option DeviceSlice))
    (ga : InnerDeviceAllocator) : List (Nat × Nat) → RetainResult
  | [] => RetainResult.ok [] textures ga []
  | e :: rest =>
    if counter < e.2 then
      match retainTransitions counter textures ga rest with
      | RetainResult.ok kept t a freed => RetainResult.ok (e :: kept) t a freed
      | RetainResult.panicked => RetainResult.panicked
    else
      match lookupStaging textures e.1 with
      | none => RetainResult.panicked
      | some none => RetainResult.panicked
      | some (some s) =>
        match retainTransitions counter (setStaging textures e.1 none) (ga.free s) rest with
        | RetainResult.ok kept t a freed => RetainResult.ok kept t a (s :: freed)
        | RetainResult.panicked => RetainResult.panicked

/-- Result of the pending-transition phase of `Renderer::process_stages`
(src/renderer.rs:354-386); the final `Bool` records whether
`pipeline.image_descriptors.into_device()` was executed. -/
inductive TransitionsResult where
  | panicked : TransitionsResult
  | ok : List (Nat × Nat) → List (Nat × Option DeviceSlice) → InnerDeviceAllocator →
      List DeviceSlice → Bool → TransitionsResult
deriving DecidableEq, Repr

/-- The pending-transition phase of `Renderer::process_stages`
(src/renderer.rs:354-386): when `ongoing_optimal_transitions` is non-empty,
read the timeline counter (passed as `counter`), run the `retain` pass, and
re-upload the image descriptor table iff the length changed. -/
def process_stages_transitions (counter : Nat)
    (textures : List (Nat × Option DeviceSlice)) (ga : InnerDeviceAllocator)
    (ongoing : List (Nat × Nat)) : TransitionsResult :=
  if ongoing.isEmpty then TransitionsResult.ok ongoing textures ga [] false
  else
    match retainTransitions counter textures ga ongoing with
    | RetainResult.panicked => TransitionsResult.panicked
    | RetainResult.ok kept t a freed =>
      TransitionsResult.ok kept t a freed (decide (kept.length ≠ ongoing.length))

/-- Modelled from the spec: `Pipeline::signal_value_for` lives in
`src/pipeline/stage.rs`, which is not among the provided sources (only its
caller `Renderer::process_stages`, src/renderer.rs:392, is). Spec section 4.4:
pure function `(frame × total_stages) + stage`. -/
def signal_value_for (total_stages frame stage : Nat) : Nat :=
  frame * total_stages + stage

/-- Modelled from the spec: `Stage::wait_for_previous_frame` lives in
`src/pipeline/stage.rs`, not among the provided sources (its caller is
src/renderer.rs:396-401). Spec section 4.4: no wait for frame 0; otherwise
stage `s` of frame `f` waits until the counter reaches the value stage `s`
signaled in frame `f - 1`. -/
def wait_target (total_stages frame stage : Nat) : Option Nat :=
  if frame = 0 then none
  else some (signal_value_for total_stages (frame - 1) stage)

/-- `MeshBuffer` (src/renderer.rs:38-45). -/
structure MeshBuffer where
  vertices : DeviceSlice
  normals : DeviceSlice
  tex_coords : DeviceSlice
  indices : DeviceSlice
  count : Nat
deriving DecidableEq, Repr

/-- Modelled from the spec: `DeviceSlice::empty` is referenced by
src/renderer.rs:193 but defined outside the provided sources; spec section 3
describes it as the size-0 sentinel meaning no backing memory. All fields are
zero. -/
def DeviceSlice.empty : DeviceSlice :=
  { size := 0, offset := 0, alignment := 0, addr := 0 }

/-- First-match lookup in the mesh table (`mesh_buffers_by_id`,
src/renderer.rs:54, a `HashMap<u32, MeshBuffer>`). -/
def lookupMesh : List (Nat × MeshBuffer) → Nat → Option MeshBuffer
  | [], _ => none
  | (k, v) :: rest, id => if k = id then some v else lookupMesh rest id

/-- `BitVec::first_zero` on the mesh-id presence bitset (src/renderer.rs:204):
the index of the lowest unset bit, if any. -/
def first_zero : List Bool → Option Nat
  | [] => none
  | false :: _ => some 0
  | true :: rest => (first_zero rest).map (fun n => n + 1)

/-- The mesh-table slice of the renderer state: the id presence bitset
(`mesh_buffer_ids`, src/renderer.rs:58), the id-to-buffer map
(src/renderer.rs:54) and the general allocator. -/
structure MeshState where
  mesh_buffer_ids : List Bool
  mesh_buffers_by_id : List (Nat × MeshBuffer)
  general_allocator : InnerDeviceAllocator
deriving DecidableEq, Repr

/-- The `alloc_or_empty` closure of `Renderer::gen_mesh`
(src/renderer.rs:185-195): a positive size is allocated (failure — `None` or
the internal indexing panic — is fatal, modelled as `none`); size 0 yields the
empty sentinel slice. -/
def alloc_or_empty (ga : InnerDeviceAllocator) (size : Nat) :
    Option (DeviceSlice × InnerDeviceAllocator) :=
  if 0 < size then
    match ga.alloc size with
    | AllocResult.ok s rs => some (s, { ga with ranges := rs })
    | AllocResult.oom => none
    | AllocResult.panic => none
  else
    some (DeviceSlice.empty, ga)

/-- `Renderer::gen_mesh` (src/renderer.rs:177-221): allocate the four slices,
reserve the lowest unset id of the presence bitset (fatal — `none` — when the
bitset is exhausted), set that bit and store the mesh buffer. -/
def gen_mesh (st : MeshState)
    (vertices_size normals_size tex_coords_size indices_size count : Nat) :
    Option (Nat × MeshState) :=
  match alloc_or_empty st.general_allocator vertices_size with
  | none => none
  | some (vertices, g1) =>
    match alloc_or_empty g1 normals_size with
    | none => none
    | some (normals, g2) =>
      match alloc_or_empty g2 tex_coords_size with
      | none => none
      | some (tex_coords, g3) =>
        match alloc_or_empty g3 indices_size with
        | none => none
        | some (indices, g4) =>
          match first_zero st.mesh_buffer_ids with
          | none => none
          | some mesh_id =>
            some (mesh_id,
              { mesh_buffer_ids := st.mesh_buffer_ids.set mesh_id true,
                mesh_buffers_by_id :=
                  (mesh_id,
                    { vertices := vertices, normals := normals,
                      tex_coords := tex_coords, indices := indices,
                      count := count }) ::
                    st.mesh_buffers_by_id.filter (fun ent => decide (ent.1 ≠ mesh_id)),
                general_allocator := g4 })

/-- `Renderer::free_mesh` (src/renderer.rs:160-175): remove the mesh (fatal —
`none` — when the id is unknown), return each stored slice with positive size
to the general allocator (in field order) and clear the presence bit. Besides
the new state, the list of slices passed to `free` is returned. -/
def free_mesh (st : MeshState) (id : Nat) : Option (MeshState × List DeviceSlice) :=
  match lookupMesh st.mesh_buffers_by_id id with
  | none => none
  | some mesh =>
    let freed := [mesh.vertices, mesh.normals, mesh.tex_coords, mesh.indices].filter
        (fun v => decide (0 < v.size))
    some
      ({ mesh_buffer_ids := st.mesh_buffer_ids.set id false,
         mesh_buffers_by_id :=
           st.mesh_buffers_by_id.filter (fun ent => decide (ent.1 ≠ id)),
         general_allocator := freed.foldl InnerDeviceAllocator.free st.general_allocator },
       freed)

/-- A render task: its kind (the batch index, `task.kind as usize` in
src/renderer.rs:114) and an opaque payload standing for the remaining fields
of `RenderTask`, whose definition is outside the provided sources. -/
structure RenderTask where
  kind : Nat
  data : Nat
deriving DecidableEq, Repr

/-- The frame/batches slice of the renderer state: `current_frame`
(src/renderer.rs:76) and `batches_by_task_type` (src/renderer.rs:57). -/
structure FrameState where
  current_frame : Nat
  batches_by_task_type : List (List RenderTask)
deriving DecidableEq, Repr

/-- `Renderer::add_task_to_queue` (src/renderer.rs:113-117): push the task
into the batch indexed by its kind; a kind outside the batch array is silently
ignored (`get_mut` returns `None`). -/
def add_task_to_queue (st : FrameState) (task : RenderTask) : FrameState :=
  match st.batches_by_task_type.get? task.kind with
  | none => st
  | some batch =>
    { st with
        batches_by_task_type :=
          st.batches_by_task_type.set task.kind (batch ++ [task]) }

/-- The frame-visible outcome of one `render()` call: the batches the stage
pass observed, and the state afterwards. -/
structure RenderOutcome where
  observed_batches : List (List RenderTask)
  state : FrameState
deriving DecidableEq, Repr

/-- `Renderer::render` (src/renderer.rs:293-336): the stage pass (inside
`record_submit_commandbuffer`, which calls `process_stages`,
src/renderer.rs:402-412) reads the current batches; after submission and
present, `incr_current_frame` advances the frame counter by one (a wrapping
u64 `fetch_add`) and every per-kind batch is cleared
(src/renderer.rs:330-334). -/
def render (st : FrameState) : RenderOutcome :=
  { observed_batches := st.batches_by_task_type,
    state :=
      { current_frame := (st.current_frame + 1) % U64MOD,
        batches_by_task_type := st.batches_by_task_type.map (fun _ => []) } }

/-- C1 (code bug). The claim says an exact-fit `alloc` removes the chosen
range and leaves every other free range unchanged. In the code the exact-fit
branch removes `ranges[i]` and then still executes `ranges[i].start = new_start`
(src/buffer.rs:282-287), so the *following* free range is mutated — or, when
the removed range was last, the indexing panics. Here: after
`alloc 256 / alloc 256 / free(first)` the free list is
`[0,256) [512,1024)`; the exact-fit `alloc 256` should leave `[512,1024)`
untouched, but the code turns it into `[256,1024)` (covering bytes owned by
the still-live second slice); on a free list `[0,256)` alone the same call
panics. -/
theorem alloc_exact_fit_mutates_next_range :
    runTrace (InnerDeviceAllocator.wrap buf1024) []
        [AllocOp.alloc 256, AllocOp.alloc 256, AllocOp.free 0, AllocOp.alloc 256] =
      TraceResult.ok { buffer := buf1024, ranges := [{ start := 256, stop := 1024 }] }
        [{ size := 256, offset := 256, alignment := 256, addr := 256 },
         { size := 256, offset := 0, alignment := 256, addr := 0 }] ∧
    InnerDeviceAllocator.alloc
        { buffer := buf1024,
          ranges := [{ start := 0, stop := 256 }, { start := 512, stop := 1024 }] } 256 ≠
      AllocResult.ok { size := 256, offset := 0, alignment := 256, addr := 0 }
        [{ start := 512, stop := 1024 }] ∧
    InnerDeviceAllocator.alloc
        { buffer := buf1024, ranges := [{ start := 0, stop := 256 }] } 256 =
      AllocResult.panic := by
  decide

/-- C2 (code bug). Spec scenario (section 8): on a fresh 1024-byte region with
alignment 256, `alloc 100` returns a 256-byte slice at offset 0, `alloc 1000`
returns `None`, freeing the first slice coalesces back to a single `[0,1024)`
range — all as claimed — but the final `alloc 1000` (rounded to 1024, an exact
fit of the sole range) panics in `ranges[i]` after the removal instead of
returning a slice at offset 0. -/
theorem spec_scenario_alloc_1000_panics :
    runTrace (InnerDeviceAllocator.wrap buf1024) [] [AllocOp.alloc 100] =
      TraceResult.ok { buffer := buf1024, ranges := [{ start := 256, stop := 1024 }] }
        [{ size := 256, offset := 0, alignment := 256, addr := 0 }] ∧
    InnerDeviceAllocator.alloc
        { buffer := buf1024, ranges := [{ start := 256, stop := 1024 }] } 1000 =
      AllocResult.oom ∧
    runTrace (InnerDeviceAllocator.wrap buf1024) []
        [AllocOp.alloc 100, AllocOp.alloc 1000, AllocOp.free 0] =
      TraceResult.ok { buffer := buf1024, ranges := [{ start := 0, stop := 1024 }] } [] ∧
    InnerDeviceAllocator.alloc
        { buffer := buf1024, ranges := [{ start := 0, stop := 1024 }] } 1000 =
      AllocResult.panic ∧
    runTrace (InnerDeviceAllocator.wrap buf1024) []
        [AllocOp.alloc 100, AllocOp.alloc 1000, AllocOp.free 0, AllocOp.alloc 1000] =
      TraceResult.panicked := by
  decide

/-- C3 (code bug). After the legal trace
`alloc 256 / alloc 256 / free(first) / alloc 256` (every free passes a live
slice), `available()` is 768 while capacity minus the live sizes is
`1024 - 512 = 512`: the exact-fit corruption grew the free list over live
bytes. A longer legal trace then leaves the free list
`[256,512) [0,1024)`, which is not in ascending, non-overlapping,
non-adjacent order. -/
theorem available_and_coalescing_invariant_violated :
    runTrace (InnerDeviceAllocator.wrap buf1024) []
        [AllocOp.alloc 256, AllocOp.alloc 256, AllocOp.free 0, AllocOp.alloc 256] =
      TraceResult.ok { buffer := buf1024, ranges := [{ start := 256, stop := 1024 }] }
        [{ size := 256, offset := 256, alignment := 256, addr := 256 },
         { size := 256, offset := 0, alignment := 256, addr := 0 }] ∧
    InnerDeviceAllocator.available
        { buffer := buf1024, ranges := [{ start := 256, stop := 1024 }] } = 768 ∧
    ([{ size := 256, offset := 256, alignment := 256, addr := 256 },
      { size := 256, offset := 0, alignment := 256, addr := 0 }].map DeviceSlice.size).sum
      = 512 ∧
    buf1024.size - 512 ≠ 768 ∧
    runTrace (InnerDeviceAllocator.wrap buf1024) []
        [AllocOp.alloc 256, AllocOp.alloc 256, AllocOp.free 0, AllocOp.alloc 256,
         AllocOp.free 1, AllocOp.free 0] =
      TraceResult.ok
        { buffer := buf1024,
          ranges := [{ start := 256, stop := 512 }, { start := 0, stop := 1024 }] } [] ∧
    ¬ rangesCoalesced [{ start := 256, stop := 512 }, { start := 0, stop := 1024 }] := by
  decide

/-- C7 (code bug). On an empty region, allocating a satisfiable size and
immediately freeing it should restore the single full free range. For
`S = 1024` (exact fit of the whole region) the allocation itself panics; for
`S = 0` the round trip terminates but leaves the free list
`[0,0) [0,1024)` instead of the original single range. -/
theorem roundtrip_on_empty_region_violated :
    InnerDeviceAllocator.alloc (InnerDeviceAllocator.wrap buf1024) 1024 =
      AllocResult.panic ∧
    runTrace (InnerDeviceAllocator.wrap buf1024) [] [AllocOp.alloc 0, AllocOp.free 0] =
      TraceResult.ok
        { buffer := buf1024,
          ranges := [{ start := 0, stop := 0 }, { start := 0, stop := 1024 }] } [] ∧
    [{ start := 0, stop := 0 }, { start := 0, stop := 1024 }] ≠
      (InnerDeviceAllocator.wrap buf1024).ranges := by
  decide

/-- C10 (code bug). A 12-operation legal trace (every free passes a slice
previously returned and not yet freed, witnessed by `runTrace` ending in `ok`)
after which `alloc` returns the slice `offset 1024, size 256`: its end
`1280` exceeds the region capacity `1024`, refuting the implicit claim that
every returned slice stays in bounds. The trace first triggers the exact-fit
corruption, then the out-of-order insertion in `free`, and finally an
exact fit on the mis-ordered range inverts the following range
(`[1280,512)`), whose wrapping u64 extent then satisfies any request. -/
theorem legal_trace_returns_out_of_bounds_slice :
    runTrace (InnerDeviceAllocator.wrap buf1024) []
        [AllocOp.alloc 192, AllocOp.alloc 64, AllocOp.free 0, AllocOp.alloc 64,
         AllocOp.free 1, AllocOp.free 0, AllocOp.alloc 768, AllocOp.free 0,
         AllocOp.alloc 320, AllocOp.alloc 192, AllocOp.alloc 128, AllocOp.alloc 128] =
      TraceResult.ok
        { buffer := buf1024,
          ranges := [{ start := 1280, stop := 512 }, { start := 768, stop := 1024 }] }
        [{ size := 512, offset := 0, alignment := 256, addr := 0 },
         { size := 256, offset := 512, alignment := 256, addr := 512 },
         { size := 256, offset := 768, alignment := 256, addr := 768 },
         { size := 256, offset := 1024, alignment := 256, addr := 1024 }] ∧
    DeviceSlice.offset { size := 256, offset := 1024, alignment := 256, addr := 1024 } +
        DeviceSlice.size { size := 256, offset := 1024, alignment := 256, addr := 1024 } =
      1280 ∧
    buf1024.size < 1280 := by
  decide

/-- C6 (counterexample). For `size = 2^64 - 1` the wrapping rounding
`next_size` yields 0, so on a fresh 1024-byte region — where the request far
exceeds `available() = 1024` — `alloc` does not return `None`: it returns a
0-byte slice, smaller than the request. -/
theorem alloc_wraparound_returns_undersized_slice :
    InnerDeviceAllocator.alloc (InnerDeviceAllocator.wrap buf1024) (2 ^ 64 - 1) =
      AllocResult.ok { size := 0, offset := 0, alignment := 256, addr := 0 }
        [{ start := 0, stop := 1024 }] ∧
    (InnerDeviceAllocator.wrap buf1024).available = 1024 ∧
    (InnerDeviceAllocator.wrap buf1024).available < 2 ^ 64 - 1 ∧
    DeviceSlice.size { size := 0, offset := 0, alignment := 256, addr := 0 } <
      2 ^ 64 - 1 := by
  decide

/-- If every range of the scanned suffix is smaller than the (already rounded)
request, the allocation loop returns `oom` (the `None` return). -/
theorem allocLoop_oom_of_all_small (buf : DeviceBuffer) (size : Nat) (ranges : List Range) :
    ∀ (suffix : List Range) (i : Nat), (∀ r ∈ suffix, r.size < size) →
      allocLoop buf size ranges suffix i = AllocResult.oom := by
  intro suffix
  induction suffix with
  | nil => intro i _; rfl
  | cons r rest ih =>
    intro i h
    have hr : r.size < size := h r (List.mem_cons_self r rest)
    simp only [allocLoop, if_pos hr]
    exact ih (i + 1) (fun x hx => h x (List.mem_cons_of_mem r hx))

/-- Any slice the allocation loop returns carries exactly the (already
rounded) requested size. -/
theorem allocLoop_ok_size (buf : DeviceBuffer) (size : Nat) (ranges : List Range) :
    ∀ (suffix : List Range) (i : Nat) (s : DeviceSlice) (rs : List Range),
      allocLoop buf size ranges suffix i = AllocResult.ok s rs → s.size = size := by
  intro suffix
  induction suffix with
  | nil => intro i s rs h; exact absurd h (by simp [allocLoop])
  | cons r rest ih =>
    intro i s rs h
    simp only [allocLoop] at h
    split at h
    · exact ih _ _ _ h
    · split at h
      · cases h
        rfl
      · cases h

/-- C6 (amended). Provided the rounding does not wrap (the rounded size is at
least the request) and the free-range sizes do not overflow a u64 sum: when
the rounded size cannot be satisfied by any single free range `alloc` returns
`None`; in particular it returns `None` whenever the request exceeds
`available()`; and any returned slice is at least as large as the request. -/
theorem alloc_exhaustion_and_size_lower_bound (a : InnerDeviceAllocator) (size : Nat)
    (hr : size ≤ next_size size a.buffer.alignment)
    (hsum : (a.ranges.map Range.size).sum < U64MOD) :
    ((∀ r ∈ a.ranges, r.size < next_size size a.buffer.alignment) →
      a.alloc size = AllocResult.oom) ∧
    (a.available < size → a.alloc size = AllocResult.oom) ∧
    (∀ s rs, a.alloc size = AllocResult.ok s rs → size ≤ s.size) := by
  refine ⟨?_, ?_, ?_⟩
  · intro h
    exact allocLoop_oom_of_all_small a.buffer _ a.ranges a.ranges 0 h
  · intro h
    apply allocLoop_oom_of_all_small a.buffer _ a.ranges a.ranges 0
    intro r hrm
    have h1 : r.size ≤ (a.ranges.map Range.size).sum :=
      List.single_le_sum (fun x _ => Nat.zero_le x) _ (List.mem_map_of_mem Range.size hrm)
    have h2 : a.available = (a.ranges.map Range.size).sum := Nat.mod_eq_of_lt hsum
    omega
  · intro s rs h
    have hs := allocLoop_ok_size a.buffer _ a.ranges a.ranges 0 s rs h
    omega

/-- Witness for `alloc_exhaustion_and_size_lower_bound` at a concrete input:
requesting 2048 bytes on a fresh 1024-byte region. -/
theorem alloc_exhaustion_and_size_lower_bound_witness :
    (2048 ≤ next_size 2048 (InnerDeviceAllocator.wrap buf1024).buffer.alignment ∧
     ((InnerDeviceAllocator.wrap buf1024).ranges.map Range.size).sum < U64MOD ∧
     (InnerDeviceAllocator.wrap buf1024).available < 2048) ∧
    (InnerDeviceAllocator.wrap buf1024).alloc 2048 = AllocResult.oom :=
  ⟨by decide,
    (alloc_exhaustion_and_size_lower_bound (InnerDeviceAllocator.wrap buf1024) 2048
      (by decide) (by decide)).2.1 (by decide)⟩

/-- Updating the staging of an existing id makes its lookup return the new
value. -/
theorem lookupStaging_setStaging_self :
    ∀ (t : List (Nat × Option DeviceSlice)) (id : Nat) (v w : Option DeviceSlice),
      lookupStaging t id = some w → lookupStaging (setStaging t id v) id = some v := by
  intro t
  induction t with
  | nil => intro id v w h; cases h
  | cons kv rest ih =>
    intro id v w h
    obtain ⟨k, x⟩ := kv
    by_cases hk : k = id
    · simp [setStaging, lookupStaging, hk]
    · simp only [setStaging, lookupStaging, if_neg hk] at h ⊢
      exact ih id v w h

/-- Updating the staging of one id leaves every other lookup unchanged. -/
theorem lookupStaging_setStaging_ne :
    ∀ (t : List (Nat × Option DeviceSlice)) (id : Nat) (v : Option DeviceSlice)
      (idq : Nat), idq ≠ id →
      lookupStaging (setStaging t id v) idq = lookupStaging t idq := by
  intro t
  induction t with
  | nil => intro id v idq _; rfl
  | cons kv rest ih =>
    intro id v idq hne
    obtain ⟨k, x⟩ := kv
    by_cases hk : k = id
    · have hiq : ¬ id = idq := fun hh => hne hh.symm
      simp [setStaging, lookupStaging, hk, hiq]
    · by_cases hq : k = idq
      · subst hq
        simp [setStaging, lookupStaging, hne, hk]
      · simp only [setStaging, lookupStaging, if_neg hk, if_neg hq]
        exact ih id v idq hne

/-- A `filterMap` whose function hits `some` on every member keeps the
length. -/
theorem length_filterMap_of_forall_isSome {α β : Type} (f : α → Option β) :
    ∀ l : List α, (∀ x ∈ l, (f x).isSome = true) →
      (l.filterMap f).length = l.length := by
  intro l
  induction l with
  | nil => intro _; rfl
  | cons a rest ih =>
    intro h
    have ha := h a (List.mem_cons_self a rest)
    cases hfa : f a with
    | none => rw [hfa] at ha; cases ha
    | some b =>
      simp only [List.filterMap_cons, hfa, List.length_cons]
      rw [ih (fun x hx => h x (List.mem_cons_of_mem a hx))]

/-- A filter keeps fewer elements exactly when some member fails the
predicate. -/
theorem filter_length_ne_iff_exists {α : Type} (p : α → Bool) :
    ∀ l : List α, ((l.filter p).length ≠ l.length ↔ ∃ x ∈ l, p x = false) := by
  intro l
  induction l with
  | nil => simp
  | cons a rest ih =>
    by_cases hp : p a = true
    · have hfc : (a :: rest).filter p = a :: rest.filter p := by
        simp [List.filter_cons, hp]
      rw [hfc, List.length_cons, List.length_cons]
      constructor
      · intro h
        obtain ⟨x, hx, hxp⟩ := ih.mp (by omega)
        exact ⟨x, List.mem_cons_of_mem a hx, hxp⟩
      · intro ⟨x, hx, hxp⟩
        rcases List.mem_cons.mp hx with rfl | hmem
        · rw [hp] at hxp; cases hxp
        · have := ih.mpr ⟨x, hmem, hxp⟩
          omega
    · have hpf : p a = false := by revert hp; cases p a <;> simp
      have hle := List.length_filter_le p rest
      have hfc : (a :: rest).filter p = rest.filter p := by
        simp [List.filter_cons, hpf]
      rw [hfc, List.length_cons]
      constructor
      · intro _; exact ⟨a, List.mem_cons_self a rest, hpf⟩
      · intro _; omega

/-- Behaviour of the `retain` pass of src/renderer.rs:362-381, provided every
pending transition names an existing texture with a staging slice and the
pending ids are distinct: exactly the transitions with completion value above
the counter survive, every reclaimed texture has its staging cleared, every
other texture is untouched, and the staging slices of the reclaimed
transitions are freed, each exactly once, into the general allocator. -/
theorem retainTransitions_spec (c : Nat) :
    ∀ (L : List (Nat × Nat)) (T : List (Nat × Option DeviceSlice))
      (A : InnerDeviceAllocator),
      (∀ e ∈ L, hasStaging T e.1 = true) →
      (L.map Prod.fst).Nodup →
      ∃ t a freed,
        retainTransitions c T A L =
          RetainResult.ok (L.filter (fun e => decide (c < e.2))) t a freed ∧
        (∀ e ∈ L, e.2 ≤ c → lookupStaging t e.1 = some none) ∧
        (∀ id, (∀ e ∈ L, e.2 ≤ c → e.1 ≠ id) →
          lookupStaging t id = lookupStaging T id) ∧
        freed = (L.filter (fun e => decide (e.2 ≤ c))).filterMap
            (fun e => Option.bind (lookupStaging T e.1) (fun x => x)) ∧
        a = freed.foldl InnerDeviceAllocator.free A := by
  intro L
  induction L with
  | nil =>
    intro T A _ _
    exact ⟨T, A, [], rfl, by simp, fun id _ => rfl, rfl, rfl⟩
  | cons e rest ih =>
    intro T A hG hN
    have hGe : hasStaging T e.1 = true := hG e (List.mem_cons_self e rest)
    have hGrest : ∀ x ∈ rest, hasStaging T x.1 = true :=
      fun x hx => hG x (List.mem_cons_of_mem e hx)
    rw [List.map_cons, List.nodup_cons] at hN
    have hne : ∀ x ∈ rest, x.1 ≠ e.1 := by
      intro x hx hcontra
      apply hN.1
      rw [← hcontra]
      exact List.mem_map_of_mem Prod.fst hx
    by_cases hc : c < e.2
    · obtain ⟨t, a, freed, heq, hset, hunch, hfreed, ha⟩ := ih T A hGrest hN.2
      refine ⟨t, a, freed, ?_, ?_, ?_, ?_, ha⟩
      · simp only [retainTransitions, if_pos hc, heq]
        have hfc : (e :: rest).filter (fun x => decide (c < x.2)) =
            e :: rest.filter (fun x => decide (c < x.2)) := by
          simp [List.filter_cons, hc]
        rw [hfc]
      · intro x hx hxle
        rcases List.mem_cons.mp hx with rfl | hmem
        · omega
        · exact hset x hmem hxle
      · intro id hid
        exact hunch id (fun x hx hxle => hid x (List.mem_cons_of_mem e hx) hxle)
      · have hfe : ¬ (e.2 ≤ c) := by omega
        have hfc : (e :: rest).filter (fun x => decide (x.2 ≤ c)) =
            rest.filter (fun x => decide (x.2 ≤ c)) := by
          simp [List.filter_cons, hfe]
        rw [hfc]
        exact hfreed
    · have hle : e.2 ≤ c := by omega
      cases hlook : lookupStaging T e.1 with
      | none =>
        rw [hasStaging, hlook] at hGe
        cases hGe
      | some st =>
        cases st with
        | none =>
          rw [hasStaging, hlook] at hGe
          cases hGe
        | some s =>
          have hGrest2 : ∀ x ∈ rest, hasStaging (setStaging T e.1 none) x.1 = true := by
            intro x hx
            rw [hasStaging, lookupStaging_setStaging_ne T e.1 none x.1 (hne x hx)]
            exact hGrest x hx
          obtain ⟨t, a, freed, heq, hset, hunch, hfreed, ha⟩ :=
            ih (setStaging T e.1 none) (A.free s) hGrest2 hN.2
          refine ⟨t, a, s :: freed, ?_, ?_, ?_, ?_, ?_⟩
          · simp only [retainTransitions, if_neg hc, hlook, heq]
            have hfc : (e :: rest).filter (fun x => decide (c < x.2)) =
                rest.filter (fun x => decide (c < x.2)) := by
              simp [List.filter_cons, hc]
            rw [hfc]
          · intro x hx hxle
            rcases List.mem_cons.mp hx with rfl | hmem
            · have hstay : lookupStaging t x.1 = lookupStaging (setStaging T x.1 none) x.1 :=
                hunch x.1 (fun y hy _ => hne y hy)
              rw [hstay]
              exact lookupStaging_setStaging_self T x.1 none (some s) hlook
            · exact hset x hmem hxle
          · intro id hid
            have hid1 : e.1 ≠ id := hid e (List.mem_cons_self e rest) hle
            have h2 : lookupStaging t id = lookupStaging (setStaging T e.1 none) id :=
              hunch id (fun x hx hxle => hid x (List.mem_cons_of_mem e hx) hxle)
            rw [h2]
            exact lookupStaging_setStaging_ne T e.1 none id (Ne.symm hid1)
          · have hfc : (e :: rest).filter (fun x => decide (x.2 ≤ c)) =
                e :: rest.filter (fun x => decide (x.2 ≤ c)) := by
              simp [List.filter_cons, hle]
            have hcong : ∀ x ∈ rest.filter (fun y => decide (y.2 ≤ c)),
                Option.bind (lookupStaging (setStaging T e.1 none) x.1) (fun y => y) =
                Option.bind (lookupStaging T x.1) (fun y => y) := by
              intro x hx
              have hxmem : x ∈ rest := (List.mem_filter.mp hx).1
              rw [lookupStaging_setStaging_ne T e.1 none x.1 (hne x hxmem)]
            have hfe : Option.bind (lookupStaging T e.1) (fun y => y) = some s := by
              rw [hlook]
              rfl
            rw [hfc, List.filterMap_cons, hfreed, List.filterMap_congr hcong]
            simp [hfe]
          · rw [List.foldl_cons]
            exact ha

/-- C4. During a frame, a pending texture transition `(id, v)` is reclaimed
iff `v ≤` the observed timeline counter (the surviving list is exactly the
filter with `counter < v`); reclaiming frees that texture staging slice
exactly once (the freed list has one entry per reclaimed transition), sets
`staging` to `None` — after which `is_texture_uploaded` returns `true` — and
the image descriptor table is re-uploaded iff at least one transition was
reclaimed. Hypotheses: every pending id names an existing texture with a
staging slice, and the pending ids are distinct (both hold for ids queued
once via `queue_texture_for_uploading` on textures with a nonzero staging). -/
theorem process_stages_reclaim_iff (c : Nat) (T : List (Nat × Option DeviceSlice))
    (A : InnerDeviceAllocator) (L : List (Nat × Nat))
    (hG : ∀ e ∈ L, hasStaging T e.1 = true)
    (hN : (L.map Prod.fst).Nodup) :
    ∃ t a freed up,
      process_stages_transitions c T A L =
        TransitionsResult.ok (L.filter (fun e => decide (c < e.2))) t a freed up ∧
      (∀ e ∈ L, e.2 ≤ c →
        lookupStaging t e.1 = some none ∧ is_texture_uploaded t e.1 = some true) ∧
      (∀ id, (∀ e ∈ L, e.2 ≤ c → e.1 ≠ id) →
        lookupStaging t id = lookupStaging T id) ∧
      freed = (L.filter (fun e => decide (e.2 ≤ c))).filterMap
          (fun e => Option.bind (lookupStaging T e.1) (fun x => x)) ∧
      freed.length = (L.filter (fun e => decide (e.2 ≤ c))).length ∧
      a = freed.foldl InnerDeviceAllocator.free A ∧
      (up = true ↔ ∃ e ∈ L, e.2 ≤ c) := by
  obtain ⟨t, a, freed, heq, hset, hunch, hfreed, ha⟩ := retainTransitions_spec c L T A hG hN
  cases L with
  | nil =>
    refine ⟨T, A, [], false, rfl, ?_, fun id _ => rfl, rfl, rfl, rfl, by simp⟩
    intro e he
    cases he
  | cons e0 rest0 =>
    refine ⟨t, a, freed,
      decide ((((e0 :: rest0).filter (fun e => decide (c < e.2))).length ≠
        (e0 :: rest0).length)), ?_, ?_, hunch, hfreed, ?_, ha, ?_⟩
    · simp only [process_stages_transitions, List.isEmpty_cons, Bool.false_eq_true,
        if_false, heq]
    · intro e he hle
      have h1 := hset e he hle
      exact ⟨h1, by simp [is_texture_uploaded, h1]⟩
    · rw [hfreed]
      apply length_filterMap_of_forall_isSome
      intro x hx
      have hxm := (List.mem_filter.mp hx).1
      exact hG x hxm
    · rw [decide_eq_true_iff, filter_length_ne_iff_exists]
      constructor
      · rintro ⟨x, hx, hxp⟩
        have := of_decide_eq_false hxp
        exact ⟨x, hx, by omega⟩
      · rintro ⟨x, hx, hxle⟩
        refine ⟨x, hx, decide_eq_false ?_⟩
        omega

/-- Witness for `process_stages_reclaim_iff`: one pending transition
`(id 7, completion 3)` against an observed counter of 5. -/
theorem process_stages_reclaim_iff_witness :
    ((∀ e ∈ ([(7, 3)] : List (Nat × Nat)),
        hasStaging [(7, some { size := 64, offset := 0, alignment := 256, addr := 0 })]
          e.1 = true) ∧
      (([(7, 3)] : List (Nat × Nat)).map Prod.fst).Nodup) ∧
    (∃ t a freed up,
      process_stages_transitions 5
          [(7, some { size := 64, offset := 0, alignment := 256, addr := 0 })]
          (InnerDeviceAllocator.wrap buf1024) [(7, 3)] =
        TransitionsResult.ok
          (([(7, 3)] : List (Nat × Nat)).filter (fun e => decide (5 < e.2))) t a freed up ∧
      (∀ e ∈ ([(7, 3)] : List (Nat × Nat)), e.2 ≤ 5 →
        lookupStaging t e.1 = some none ∧ is_texture_uploaded t e.1 = some true) ∧
      (∀ id, (∀ e ∈ ([(7, 3)] : List (Nat × Nat)), e.2 ≤ 5 → e.1 ≠ id) →
        lookupStaging t id =
          lookupStaging [(7, some { size := 64, offset := 0, alignment := 256, addr := 0 })] id) ∧
      freed = (([(7, 3)] : List (Nat × Nat)).filter (fun e => decide (e.2 ≤ 5))).filterMap
          (fun e => Option.bind
            (lookupStaging [(7, some { size := 64, offset := 0, alignment := 256, addr := 0 })] e.1)
            (fun x => x)) ∧
      freed.length =
        (([(7, 3)] : List (Nat × Nat)).filter (fun e => decide (e.2 ≤ 5))).length ∧
      a = freed.foldl InnerDeviceAllocator.free (InnerDeviceAllocator.wrap buf1024) ∧
      (up = true ↔ ∃ e ∈ ([(7, 3)] : List (Nat × Nat)), e.2 ≤ 5)) :=
  ⟨⟨by decide, by decide⟩,
    process_stages_reclaim_iff 5
      [(7, some { size := 64, offset := 0, alignment := 256, addr := 0 })]
      (InnerDeviceAllocator.wrap buf1024) [(7, 3)] (by decide) (by decide)⟩

/-- C5. The pure signal-value function is `(frame × total_stages) + stage`;
frame 0 has no wait target; for `f > 0` the wait target of stage `s` is
`(f - 1) * T + s`, exactly the value stage `s` signaled in frame `f - 1` and
strictly below the value stage `s` signals in frame `f`; and signal values
respect the lexicographic (frame, stage) execution order, so with a
monotonically increasing counter the wait of stage `s` of frame `f` can only
be satisfied once stage `s` of frame `f - 1` has signaled. -/
theorem signal_value_and_wait_target_spec (T f s : Nat) (hs : s < T) :
    signal_value_for T f s = f * T + s ∧
    wait_target T 0 s = none ∧
    (0 < f → wait_target T f s = some ((f - 1) * T + s)) ∧
    (0 < f → wait_target T f s = some (signal_value_for T (f - 1) s)) ∧
    (0 < f → signal_value_for T (f - 1) s < signal_value_for T f s) ∧
    (∀ g t, t < T →
      (signal_value_for T g t < signal_value_for T f s ↔
        (g < f ∨ (g = f ∧ t < s)))) := by
  have key : ∀ g t, t < T →
      (signal_value_for T g t < signal_value_for T f s ↔
        (g < f ∨ (g = f ∧ t < s))) := by
    intro g t ht
    unfold signal_value_for
    constructor
    · intro h
      rcases Nat.lt_trichotomy g f with hgf | hgf | hgf
      · exact Or.inl hgf
      · subst hgf
        exact Or.inr ⟨rfl, by omega⟩
      · exfalso
        have h1 : (f + 1) * T ≤ g * T :=
          Nat.mul_le_mul_right T (by omega : f + 1 ≤ g)
        have h2 : (f + 1) * T = f * T + T := by ring
        omega
    · intro h
      rcases h with hgf | ⟨rfl, hts⟩
      · have h1 : (g + 1) * T ≤ f * T :=
          Nat.mul_le_mul_right T (by omega : g + 1 ≤ f)
        have h2 : (g + 1) * T = g * T + T := by ring
        omega
      · omega
  refine ⟨rfl, rfl, ?_, ?_, ?_, key⟩
  · intro hf
    simp only [wait_target]
    rw [if_neg (by omega : ¬ f = 0)]
    rfl
  · intro hf
    simp only [wait_target]
    rw [if_neg (by omega : ¬ f = 0)]
  · intro hf
    exact (key (f - 1) s hs).mpr (Or.inl (by omega))

/-- Witness for `signal_value_and_wait_target_spec`: 2 stages, frame 3,
stage 1. -/
theorem signal_value_and_wait_target_spec_witness :
    (1 < 2 ∧ 0 < 3) ∧
    wait_target 2 3 1 = some ((3 - 1) * 2 + 1) ∧
    wait_target 2 0 1 = none ∧
    signal_value_for 2 2 1 < signal_value_for 2 3 1 :=
  ⟨⟨by decide, by decide⟩,
    (signal_value_and_wait_target_spec 2 3 1 (by decide)).2.2.1 (by decide),
    (signal_value_and_wait_target_spec 2 3 1 (by decide)).2.1,
    (signal_value_and_wait_target_spec 2 3 1 (by decide)).2.2.2.2.1 (by decide)⟩

/-- `first_zero` returns an index holding `false` such that every lower index
holds `true`: the lowest unset bit. -/
theorem first_zero_spec :
    ∀ (l : List Bool) (i : Nat), first_zero l = some i →
      l.get? i = some false ∧ ∀ j, j < i → l.get? j = some true := by
  intro l
  induction l with
  | nil => intro i h; cases h
  | cons b rest ih =>
    intro i h
    cases b with
    | false =>
      simp only [first_zero] at h
      injection h with h0
      subst h0
      exact ⟨rfl, fun j hj => absurd hj (by omega)⟩
    | true =>
      simp only [first_zero] at h
      cases hfz : first_zero rest with
      | none => rw [hfz] at h; cases h
      | some iq =>
        rw [hfz] at h
        simp only [Option.map_some'] at h
        injection h with h0
        subst h0
        obtain ⟨h1, h2⟩ := ih iq hfz
        refine ⟨h1, ?_⟩
        intro j hj
        cases j with
        | zero => rfl
        | succ jq => exact h2 jq (by omega)

/-- Clearing the bit that `first_zero` found does not change `first_zero`. -/
theorem first_zero_set_false :
    ∀ (l : List Bool) (i : Nat), first_zero l = some i →
      first_zero (l.set i false) = some i := by
  intro l
  induction l with
  | nil => intro i h; cases h
  | cons b rest ih =>
    intro i h
    cases b with
    | false =>
      simp only [first_zero] at h
      injection h with h0
      subst h0
      rfl
    | true =>
      simp only [first_zero] at h
      cases hfz : first_zero rest with
      | none => rw [hfz] at h; cases h
      | some iq =>
        rw [hfz] at h
        simp only [Option.map_some'] at h
        injection h with h0
        subst h0
        show first_zero (true :: rest.set iq false) = some (iq + 1)
        simp only [first_zero, ih iq hfz, Option.map_some']

/-- On a fully set bitset `first_zero` finds nothing. -/
theorem first_zero_none_of_all_true :
    ∀ l : List Bool, (∀ b ∈ l, b = true) → first_zero l = none := by
  intro l
  induction l with
  | nil => intro _; rfl
  | cons b rest ih =>
    intro h
    have hb : b = true := h b (List.mem_cons_self b rest)
    subst hb
    simp only [first_zero, ih (fun x hx => h x (List.mem_cons_of_mem true hx)),
      Option.map_none']

/-- A successful `gen_mesh` returns the id found by `first_zero`, sets that
bit, and prepends the new mesh to the table. -/
theorem gen_mesh_ok :
    ∀ (st : MeshState) (v n t i c id : Nat) (st1 : MeshState),
      gen_mesh st v n t i c = some (id, st1) →
      first_zero st.mesh_buffer_ids = some id ∧
      st1.mesh_buffer_ids = st.mesh_buffer_ids.set id true ∧
      ∃ mesh, st1.mesh_buffers_by_id =
        (id, mesh) :: st.mesh_buffers_by_id.filter (fun ent => decide (ent.1 ≠ id)) := by
  intro st v n t i c id st1 h
  unfold gen_mesh at h
  cases hA1 : alloc_or_empty st.general_allocator v with
  | none => simp only [hA1] at h; exact Option.noConfusion h
  | some p1 =>
    obtain ⟨vs, g1⟩ := p1
    simp only [hA1] at h
    cases hA2 : alloc_or_empty g1 n with
    | none => simp only [hA2] at h; exact Option.noConfusion h
    | some p2 =>
      obtain ⟨ns, g2⟩ := p2
      simp only [hA2] at h
      cases hA3 : alloc_or_empty g2 t with
      | none => simp only [hA3] at h; exact Option.noConfusion h
      | some p3 =>
        obtain ⟨ts, g3⟩ := p3
        simp only [hA3] at h
        cases hA4 : alloc_or_empty g3 i with
        | none => simp only [hA4] at h; exact Option.noConfusion h
        | some p4 =>
          obtain ⟨iv, g4⟩ := p4
          simp only [hA4] at h
          cases hFZ : first_zero st.mesh_buffer_ids with
          | none => simp only [hFZ] at h; exact Option.noConfusion h
          | some mid =>
            simp only [hFZ, Option.some.injEq, Prod.mk.injEq] at h
            obtain ⟨hid, hst⟩ := h
            subst hid
            subst hst
            exact ⟨rfl, rfl, ⟨_, rfl⟩⟩

/-- On an exhausted bitset (every bit set) `gen_mesh` fails fatally, whatever
its allocations do. -/
theorem gen_mesh_exhausted (st : MeshState) (v n t i c : Nat)
    (hfull : ∀ b ∈ st.mesh_buffer_ids, b = true) :
    gen_mesh st v n t i c = none := by
  have hfz : first_zero st.mesh_buffer_ids = none :=
    first_zero_none_of_all_true st.mesh_buffer_ids hfull
  unfold gen_mesh
  cases hA1 : alloc_or_empty st.general_allocator v with
  | none => simp only [hA1]
  | some p1 =>
    obtain ⟨vs, g1⟩ := p1
    simp only [hA1]
    cases hA2 : alloc_or_empty g1 n with
    | none => simp only [hA2]
    | some p2 =>
      obtain ⟨ns, g2⟩ := p2
      simp only [hA2]
      cases hA3 : alloc_or_empty g2 t with
      | none => simp only [hA3]
      | some p3 =>
        obtain ⟨ts, g3⟩ := p3
        simp only [hA3]
        cases hA4 : alloc_or_empty g3 i with
        | none => simp only [hA4]
        | some p4 =>
          obtain ⟨iv, g4⟩ := p4
          simp only [hA4, hfz]

/-- C8. `gen_mesh` assigns the lowest unset bit of the presence bitset as the
new id (and fails fatally on an exhausted bitset) and sets that bit;
`free_mesh` passes exactly the stored slices with positive size to the
allocator and clears the bit; consequently `gen_mesh` / `free_mesh` /
`gen_mesh` reissues the same id. -/
theorem gen_free_gen_reissues_lowest_id
    (st st1 st2 st3 : MeshState) (freed : List DeviceSlice)
    (v1 n1 t1 i1 c1 v2 n2 t2 i2 c2 id id2 : Nat)
    (h1 : gen_mesh st v1 n1 t1 i1 c1 = some (id, st1))
    (h2 : free_mesh st1 id = some (st2, freed))
    (h3 : gen_mesh st2 v2 n2 t2 i2 c2 = some (id2, st3)) :
    (st.mesh_buffer_ids.get? id = some false ∧
      ∀ j, j < id → st.mesh_buffer_ids.get? j = some true) ∧
    st1.mesh_buffer_ids = st.mesh_buffer_ids.set id true ∧
    (∃ mesh, lookupMesh st1.mesh_buffers_by_id id = some mesh ∧
      freed = [mesh.vertices, mesh.normals, mesh.tex_coords, mesh.indices].filter
          (fun x => decide (0 < x.size)) ∧
      st2.general_allocator =
        freed.foldl InnerDeviceAllocator.free st1.general_allocator) ∧
    st2.mesh_buffer_ids = st1.mesh_buffer_ids.set id false ∧
    (∀ stq vq nq tq iq cq, (∀ b ∈ MeshState.mesh_buffer_ids stq, b = true) →
      gen_mesh stq vq nq tq iq cq = none) ∧
    id2 = id := by
  obtain ⟨hfz, hbits, mesh0, hmap⟩ := gen_mesh_ok st v1 n1 t1 i1 c1 id st1 h1
  have hlook : lookupMesh st1.mesh_buffers_by_id id = some mesh0 := by
    rw [hmap]
    simp [lookupMesh]
  unfold free_mesh at h2
  simp only [hlook, Option.some.injEq, Prod.mk.injEq] at h2
  obtain ⟨hst2, hfreed⟩ := h2
  have hbits2 : st2.mesh_buffer_ids = st1.mesh_buffer_ids.set id false := by
    rw [← hst2]
  have hga2 : st2.general_allocator =
      ([mesh0.vertices, mesh0.normals, mesh0.tex_coords, mesh0.indices].filter
        (fun v => decide (0 < v.size))).foldl InnerDeviceAllocator.free
        st1.general_allocator := by
    rw [← hst2]
  obtain ⟨hfz3, -, -⟩ := gen_mesh_ok st2 v2 n2 t2 i2 c2 id2 st3 h3
  have hset2 : st2.mesh_buffer_ids = st.mesh_buffer_ids.set id false := by
    rw [hbits2, hbits, List.set_set]
  rw [hset2] at hfz3
  rw [first_zero_set_false st.mesh_buffer_ids id hfz] at hfz3
  injection hfz3 with hid2
  refine ⟨first_zero_spec st.mesh_buffer_ids id hfz, hbits,
    ⟨mesh0, hlook, hfreed.symm, ?_⟩, hbits2, ?_, hid2.symm⟩
  · rw [hga2, hfreed]
  · exact fun stq vq nq tq iq cq hfull => gen_mesh_exhausted stq vq nq tq iq cq hfull

/-- Witness for `gen_free_gen_reissues_lowest_id`: a 2-bit bitset, all four
slice sizes zero; the id 0 is issued, freed and reissued. -/
theorem gen_free_gen_reissues_lowest_id_witness :
    (gen_mesh
        { mesh_buffer_ids := [false, false], mesh_buffers_by_id := [],
          general_allocator := InnerDeviceAllocator.wrap buf1024 } 0 0 0 0 0 =
      some (0,
        { mesh_buffer_ids := [true, false],
          mesh_buffers_by_id :=
            [(0, { vertices := DeviceSlice.empty, normals := DeviceSlice.empty,
                   tex_coords := DeviceSlice.empty, indices := DeviceSlice.empty,
                   count := 0 })],
          general_allocator := InnerDeviceAllocator.wrap buf1024 }) ∧
     free_mesh
        { mesh_buffer_ids := [true, false],
          mesh_buffers_by_id :=
            [(0, { vertices := DeviceSlice.empty, normals := DeviceSlice.empty,
                   tex_coords := DeviceSlice.empty, indices := DeviceSlice.empty,
                   count := 0 })],
          general_allocator := InnerDeviceAllocator.wrap buf1024 } 0 =
      some
        ({ mesh_buffer_ids := [false, false], mesh_buffers_by_id := [],
           general_allocator := InnerDeviceAllocator.wrap buf1024 }, []) ∧
     gen_mesh
        { mesh_buffer_ids := [false, false], mesh_buffers_by_id := [],
          general_allocator := InnerDeviceAllocator.wrap buf1024 } 0 0 0 0 0 =
      some (0,
        { mesh_buffer_ids := [true, false],
          mesh_buffers_by_id :=
            [(0, { vertices := DeviceSlice.empty, normals := DeviceSlice.empty,
                   tex_coords := DeviceSlice.empty, indices := DeviceSlice.empty,
                   count := 0 })],
          general_allocator := InnerDeviceAllocator.wrap buf1024 })) ∧
    (([false, false] : List Bool).get? 0 = some false ∧
      ∀ j, j < 0 → ([false, false] : List Bool).get? j = some true) ∧
    ([true, false] : List Bool) = ([false, false] : List Bool).set 0 true ∧
    (∃ mesh, lookupMesh
        [(0, { vertices := DeviceSlice.empty, normals := DeviceSlice.empty,
               tex_coords := DeviceSlice.empty, indices := DeviceSlice.empty,
               count := 0 })] 0 = some mesh ∧
      ([] : List DeviceSlice) =
        [mesh.vertices, mesh.normals, mesh.tex_coords, mesh.indices].filter
          (fun x => decide (0 < x.size)) ∧
      InnerDeviceAllocator.wrap buf1024 =
        ([] : List DeviceSlice).foldl InnerDeviceAllocator.free
          (InnerDeviceAllocator.wrap buf1024)) ∧
    ([false, false] : List Bool) = ([true, false] : List Bool).set 0 false ∧
    (∀ stq vq nq tq iq cq, (∀ b ∈ MeshState.mesh_buffer_ids stq, b = true) →
      gen_mesh stq vq nq tq iq cq = none) ∧
    (0 : Nat) = 0 :=
  ⟨⟨by decide, by decide, by decide⟩,
    gen_free_gen_reissues_lowest_id
      { mesh_buffer_ids := [false, false], mesh_buffers_by_id := [],
        general_allocator := InnerDeviceAllocator.wrap buf1024 }
      { mesh_buffer_ids := [true, false],
        mesh_buffers_by_id :=
          [(0, { vertices := DeviceSlice.empty, normals := DeviceSlice.empty,
                 tex_coords := DeviceSlice.empty, indices := DeviceSlice.empty,
                 count := 0 })],
        general_allocator := InnerDeviceAllocator.wrap buf1024 }
      { mesh_buffer_ids := [false, false], mesh_buffers_by_id := [],
        general_allocator := InnerDeviceAllocator.wrap buf1024 }
      { mesh_buffer_ids := [true, false],
        mesh_buffers_by_id :=
          [(0, { vertices := DeviceSlice.empty, normals := DeviceSlice.empty,
                 tex_coords := DeviceSlice.empty, indices := DeviceSlice.empty,
                 count := 0 })],
        general_allocator := InnerDeviceAllocator.wrap buf1024 }
      [] 0 0 0 0 0 0 0 0 0 0 0 0 (by decide) (by decide) (by decide)⟩

/-- C9. `render()` advances the frame counter by exactly one and, after
submission, clears every per-kind batch; a task enqueued with a valid kind is
in the batches observed by that frames stage pass and in no later frames
(all batches are empty afterwards, so the next render observes none of it). -/
theorem render_advances_frame_and_drains_batches (st : FrameState) (task : RenderTask)
    (hk : task.kind < st.batches_by_task_type.length)
    (hf : st.current_frame + 1 < U64MOD) :
    (render (add_task_to_queue st task)).state.current_frame = st.current_frame + 1 ∧
    (∃ b, (render (add_task_to_queue st task)).observed_batches.get? task.kind =
        some b ∧ task ∈ b) ∧
    (∀ b ∈ (render (add_task_to_queue st task)).state.batches_by_task_type, b = []) ∧
    (∀ b ∈ (render ((render (add_task_to_queue st task)).state)).observed_batches,
      ¬ task ∈ b) := by
  have hg : st.batches_by_task_type.get? task.kind =
      some (st.batches_by_task_type.get ⟨task.kind, hk⟩) := List.get?_eq_get hk
  have hadd : add_task_to_queue st task =
      { st with
          batches_by_task_type :=
            st.batches_by_task_type.set task.kind
              (st.batches_by_task_type.get ⟨task.kind, hk⟩ ++ [task]) } := by
    unfold add_task_to_queue
    rw [hg]
  refine ⟨?_, ?_, ?_, ?_⟩
  · rw [hadd]
    exact Nat.mod_eq_of_lt hf
  · refine ⟨st.batches_by_task_type.get ⟨task.kind, hk⟩ ++ [task], ?_, ?_⟩
    · rw [hadd]
      exact List.get?_set_eq_of_lt _ hk
    · exact List.mem_append_right _ (List.mem_singleton.mpr rfl)
  · intro b hb
    rw [hadd] at hb
    obtain ⟨x, -, hx⟩ := List.mem_map.mp hb
    exact hx.symm
  · intro b hb
    rw [hadd] at hb
    obtain ⟨x, -, hx⟩ := List.mem_map.mp hb
    rw [← hx]
    simp

/-- Witness for `render_advances_frame_and_drains_batches`: one empty batch,
a task of kind 0 on frame 0. -/
theorem render_advances_frame_and_drains_batches_witness :
    ((RenderTask.mk 0 42).kind <
        (FrameState.mk 0 [[]]).batches_by_task_type.length ∧
      (FrameState.mk 0 [[]]).current_frame + 1 < U64MOD) ∧
    ((render (add_task_to_queue (FrameState.mk 0 [[]]) (RenderTask.mk 0 42))).state.current_frame =
        (FrameState.mk 0 [[]]).current_frame + 1 ∧
      (∃ b, (render (add_task_to_queue (FrameState.mk 0 [[]])
          (RenderTask.mk 0 42))).observed_batches.get? (RenderTask.mk 0 42).kind =
          some b ∧ RenderTask.mk 0 42 ∈ b) ∧
      (∀ b ∈ (render (add_task_to_queue (FrameState.mk 0 [[]])
          (RenderTask.mk 0 42))).state.batches_by_task_type, b = []) ∧
      (∀ b ∈ (render ((render (add_task_to_queue (FrameState.mk 0 [[]])
          (RenderTask.mk 0 42))).state)).observed_batches,
        ¬ RenderTask.mk 0 42 ∈ b)) :=
  ⟨⟨by decide, by decide⟩,
    render_advances_frame_and_drains_batches (FrameState.mk 0 [[]])
      (RenderTask.mk 0 42) (by decide) (by decide)⟩
